import Mathlib

/-!
Verification of the paper_to_scrapbox browser extension: the background
service worker job orchestration (start / status / clear handlers,
`markJobStatus`, `pushLog`, `loadPersistedJob`), the offscreen execution
delegate (`handleStartMessage`), and the PDF-link resolution heuristics
(`looksLikePdf`, the HTML scan of `findPdfUrl`, `buildScrapboxUrl`).

JavaScript strings are modelled as lists of characters (`Str`); the
character-wise `toLowerCase` is modelled by `Char.toLower`, which agrees
with JavaScript on ASCII.  Fallible operations return `Option`/`Except`.
-/

namespace PaperToScrapbox

/-- JavaScript strings, modelled as lists of characters. -/
abbrev Str := List Char

/-- Embed a Lean string literal into the character-list model. -/
def str (s : String) : Str := s.data

/-- Character-wise lowercasing, modelling `String.prototype.toLowerCase`
(the two agree on the ASCII range). -/
def toLowerStr (s : Str) : Str := s.map Char.toLower

/-- Does `l` start with `p`?  Models `String.prototype.startsWith`. -/
def strStartsWith : Str → Str → Bool
  | _, [] => true
  | [], _ :: _ => false
  | c :: cs, p :: ps => if c = p then strStartsWith cs ps else false

/-- Does `l` end with `p`?  Models `String.prototype.endsWith`. -/
def strEndsWith (l p : Str) : Bool := strStartsWith l.reverse p.reverse

/-- Does `l` contain `p` as a contiguous substring?
Models `String.prototype.includes`. -/
def strHasSub : Str → Str → Bool
  | [], p => p.isEmpty
  | c :: cs, p => strStartsWith (c :: cs) p || strHasSub cs p

/-- Declarative reading of "starts with": some tail extends the pattern. -/
def StartsWithSpec (l p : Str) : Prop := ∃ b, l = p ++ b

/-- Declarative reading of "ends with": some head precedes the pattern. -/
def EndsWithSpec (l p : Str) : Prop := ∃ a, l = a ++ p

/-- Declarative reading of "contains": the pattern occurs somewhere inside. -/
def HasSubSpec (l p : Str) : Prop := ∃ a b, l = a ++ p ++ b

/-- The `looksLikePdf(url, anchorText, mimeType)` heuristic, translated from
the source: a chain of early returns, each testing one lowercased signal. -/
def looksLikePdf (url anchorText mimeType : Str) : Bool :=
  let lowerUrl := toLowerStr url
  let lowerText := toLowerStr anchorText
  let lowerMime := toLowerStr mimeType
  strEndsWith lowerUrl (str ".pdf") ||
  decide (lowerMime = str "application/pdf") ||
  strHasSub lowerUrl (str ".pdf") ||
  strHasSub lowerUrl (str "/pdf/") ||
  (strHasSub lowerUrl (str "format=pdf") || strHasSub lowerUrl (str "download=1")) ||
  strHasSub lowerText (str "pdf")

/-- The disjunction of signals stated by the specification for
`looksLikePdf`: URL ends in `.pdf`; MIME type is `application/pdf`
(all comparisons are over the lowercased inputs, hence case-insensitive);
URL contains `.pdf` anywhere; URL contains a `/pdf/` segment; the URL
indicates a PDF format (`format=pdf`) or a forced download (`download=1`);
or the anchor text contains "pdf". -/
def LooksLikePdfClaim (url anchorText mimeType : Str) : Prop :=
  EndsWithSpec (toLowerStr url) (str ".pdf") ∨
  toLowerStr mimeType = str "application/pdf" ∨
  HasSubSpec (toLowerStr url) (str ".pdf") ∨
  HasSubSpec (toLowerStr url) (str "/pdf/") ∨
  (HasSubSpec (toLowerStr url) (str "format=pdf") ∨
    HasSubSpec (toLowerStr url) (str "download=1")) ∨
  HasSubSpec (toLowerStr anchorText) (str "pdf")

/-- Job status values used by the background service worker. -/
inductive Status
  | running
  | success
  | error
  | aborted
deriving DecidableEq, Repr

/-- The frozen input snapshot stored in the `context` field of a job. -/
structure JobContext where
  pageUrl : Str
  pdfUrl : Option Str
  project : Str
  scrapboxBase : Str
  model : Str
  apiKey : Option Str
deriving DecidableEq, Repr

/-- One log line, as pushed by `pushLog`: an ISO timestamp and a message. -/
structure LogEntry where
  timestamp : Str
  message : Str
deriving DecidableEq, Repr

/-- The `result` record set on success. -/
structure JobResult where
  title : Str
  summaryLength : Nat
  scrapboxUrl : Str
deriving DecidableEq, Repr

/-- The persisted job record created by the start-summary handler. -/
structure Job where
  id : Str
  status : Status
  logs : List LogEntry
  startedAt : Nat
  updatedAt : Nat
  finishedAt : Option Nat
  error : Option Str
  result : Option JobResult
  context : Option JobContext
deriving DecidableEq, Repr

/-- Models the JavaScript idiom `x || null` on an optional string: an
absent or empty string collapses to null. -/
def jsOrNull : Option Str → Option Str
  | some s => if s = [] then none else some s
  | none => none

/-- JavaScript truthiness of an optional string: present and nonempty. -/
def truthyOptStr : Option Str → Bool
  | some s => !s.isEmpty
  | none => false

/-- The `LOG_LIMIT` constant of the background worker. -/
def LOG_LIMIT : Nat := 200

/-- The extra argument of `markJobStatus`: `none` models an absent
(undefined) field. -/
structure MarkExtra where
  error : Option Str
  result : Option JobResult
deriving DecidableEq, Repr

/-- The `markJobStatus(jobId, status, extra)` operation of the background
worker, acting on the current job (`none` = no job).  Returns the new
current job together with a flag recording whether `commitJob` ran (i.e.
whether anything was persisted and broadcast).  `now` stands for the
`Date.now()` reads; `commitJob` bumps `updatedAt`. -/
def markJobStatus (st : Option Job) (jobId : Str) (status : Status)
    (extra : MarkExtra) (now : Nat) : Option Job × Bool :=
  match st with
  | none => (none, false)
  | some job =>
    if job.id = jobId then
      let j1 : Job := { job with
        status := status
        finishedAt := some now
        error := jsOrNull extra.error }
      let j2 : Job :=
        match extra.result with
        | some r => { j1 with result := some r }
        | none => if status ≠ Status.success then { j1 with result := none } else j1
      let j3 : Job :=
        if status ≠ Status.running then
          match j2.context with
          | some ctx => { j2 with context := some { ctx with apiKey := none } }
          | none => j2
        else j2
      (some { j3 with updatedAt := now }, true)
    else (some job, false)

/-- The credential held by the context of the current job, if any. -/
def credentialOf : Option Job → Option Str
  | some job =>
    match job.context with
    | some ctx => ctx.apiKey
    | none => none
  | none => none

/-- The logs of the current job (empty when no job exists). -/
def logsOf : Option Job → List LogEntry
  | some job => job.logs
  | none => []

/-- The payload of a `start-summary` message.  A missing required field is
modelled by the empty string (JavaScript treats both undefined and the
empty string as falsy in the handler check). -/
structure StartPayload where
  pageUrl : Str
  pdfUrl : Option Str
  project : Str
  scrapboxBase : Str
  model : Str
  apiKey : Str
deriving DecidableEq, Repr

/-- Errors surfaced by the start-summary handler (the two distinct
rejection messages of the source). -/
inductive StartErr
  | missingFields
  | alreadyRunning
deriving DecidableEq, Repr

/-- A `sendResponse` value of the start-summary handler. -/
structure StartResp where
  ok : Bool
  error : Option StartErr
deriving DecidableEq, Repr

/-- Truthiness of the five required payload fields, as checked by
`if (!pageUrl || !project || !scrapboxBase || !model || !apiKey)`. -/
def requiredPresent (p : StartPayload) : Bool :=
  !p.pageUrl.isEmpty && !p.project.isEmpty && !p.scrapboxBase.isEmpty &&
  !p.model.isEmpty && !p.apiKey.isEmpty

/-- The guard `currentJob && currentJob.status === "running"`. -/
def currentRunning : Option Job → Bool
  | some job => decide (job.status = Status.running)
  | none => false

/-- The synchronous part of the `start-summary` message handler: validate
the payload, reject when a job is already running, otherwise create and
install the new running job.  `newId` stands for `crypto.randomUUID()`,
`now` for `Date.now()`.  Returns the response together with the new
current job. -/
def handleStartSummary (st : Option Job) (p : StartPayload) (newId : Str)
    (now : Nat) : StartResp × Option Job :=
  if !(requiredPresent p) then
    ({ ok := false, error := some StartErr.missingFields }, st)
  else if currentRunning st then
    ({ ok := false, error := some StartErr.alreadyRunning }, st)
  else
    ({ ok := true, error := none },
      some { id := newId
             status := Status.running
             logs := []
             startedAt := now
             updatedAt := now
             finishedAt := none
             error := none
             result := none
             context := some { pageUrl := p.pageUrl
                               pdfUrl := jsOrNull p.pdfUrl
                               project := p.project
                               scrapboxBase := p.scrapboxBase
                               model := p.model
                               apiKey := some p.apiKey } })

/-- The log-append step of `pushLog`: push the entry, then shift off the
oldest entry when the list exceeds `LOG_LIMIT`. -/
def pushLogEntry (logs : List LogEntry) (e : LogEntry) : List LogEntry :=
  let l := logs ++ [e]
  if LOG_LIMIT < l.length then l.tail else l

/-- The `pushLog(jobId, message)` operation: a no-op unless the current
job matches `jobId`; otherwise append (with eviction) and commit.  The
returned flag records whether `commitJob` ran. -/
def pushLog (st : Option Job) (jobId : Str) (e : LogEntry) (now : Nat) :
    Option Job × Bool :=
  match st with
  | none => (none, false)
  | some job =>
    if job.id = jobId then
      (some { job with logs := pushLogEntry job.logs e, updatedAt := now }, true)
    else (some job, false)

/-- The resume log line pushed by `loadPersistedJob`. -/
def resumeLogMessage : Str :=
  str "サービスワーカー再起動のため処理を再開します"

/-- The abort error message set by `loadPersistedJob` when the credential
needed to resume is gone. -/
def abortMessage : Str :=
  str "サービスワーカー再起動時に再開に必要な情報が不足していました。もう一度実行してください。"

/-- What `loadPersistedJob` did, beyond updating the current job: nothing
was stored; the stored non-running job was only broadcast; the pipeline
was re-run for the id of the stored job (resume); or the job was marked
aborted because the snapshot was inconsistent. -/
inductive LoadOutcome
  | noStoredJob
  | broadcastOnly
  | resumed (jobId : Str)
  | abortedInconsistent
deriving DecidableEq, Repr

/-- The guard `job.context && job.context.apiKey` of `loadPersistedJob`. -/
def hasUsableCredential (job : Job) : Bool :=
  match job.context with
  | some ctx => truthyOptStr ctx.apiKey
  | none => false

/-- The abort branch of `loadPersistedJob`: mark the job aborted with
`abortMessage`, push the message as a log line, and commit. -/
def abortOnLoad (job : Job) (nowIso : Str) (now : Nat) :
    Option Job × LoadOutcome :=
  (some { job with
      status := Status.aborted
      error := some abortMessage
      logs := job.logs ++ [⟨nowIso, abortMessage⟩]
      updatedAt := now },
    LoadOutcome.abortedInconsistent)

/-- `loadPersistedJob()`, run at service-worker start on the stored job
record.  (`ensureJobLogs` is the identity in this typed model, where
`logs` is always a list.)  In the resume branch the code pushes the
resume log line directly — without the `pushLog` eviction — commits, and
re-runs `runSummaryFlow` with the stored context and job id. -/
def loadPersistedJob (stored : Option Job) (nowIso : Str) (now : Nat) :
    Option Job × LoadOutcome :=
  match stored with
  | none => (none, LoadOutcome.noStoredJob)
  | some job =>
    if job.status = Status.running then
      if hasUsableCredential job then
        (some { job with
            logs := job.logs ++ [⟨nowIso, resumeLogMessage⟩]
            updatedAt := now },
          LoadOutcome.resumed job.id)
      else abortOnLoad job nowIso now
    else (some job, LoadOutcome.broadcastOnly)

/-- A concrete log entry used to instantiate the general theorems. -/
def sampleEntry : LogEntry :=
  { timestamp := str "2024-01-01T00:00:00Z", message := str "log line" }

/-- A concrete job context holding a credential. -/
def sampleContext : JobContext :=
  { pageUrl := str "https://example.org/abs/1"
    pdfUrl := none
    project := str "proj"
    scrapboxBase := str "https://scrapbox.io"
    model := str "gpt-4o-mini"
    apiKey := some (str "sk-test") }

/-- A concrete running job used to instantiate the general theorems. -/
def sampleRunningJob : Job :=
  { id := str "job-1"
    status := Status.running
    logs := [sampleEntry]
    startedAt := 1
    updatedAt := 1
    finishedAt := none
    error := none
    result := none
    context := some sampleContext }

/-- A concrete complete start payload. -/
def samplePayload : StartPayload :=
  { pageUrl := str "https://example.org/paper"
    pdfUrl := none
    project := str "proj"
    scrapboxBase := str "https://scrapbox.io"
    model := str "gpt-4o-mini"
    apiKey := str "sk-2" }

/-- A concrete extra argument for `markJobStatus`. -/
def sampleExtra : MarkExtra := { error := some (str "boom"), result := none }

/-- A running job whose log list is already at the `LOG_LIMIT` bound. -/
def fullLogJob : Job :=
  { sampleRunningJob with logs := List.replicate LOG_LIMIT sampleEntry }

/-- The current job of the offscreen delegate: the id and context captured by
`currentJob = { id: jobId, context }`. -/
structure OffJob where
  id : Str
  context : JobContext
deriving DecidableEq, Repr

/-- An `offscreen-start` message: job id (the empty string models a
missing/falsy id), optional context, and the resume flag. -/
structure OffStartMsg where
  jobId : Str
  context : Option JobContext
  resume : Bool
deriving DecidableEq, Repr

/-- The three distinct rejection messages of `handleStartMessage`. -/
inductive OffStartErr
  | missingJobInfo
  | sameJobRunning
  | busy
deriving DecidableEq, Repr

/-- A response of `handleStartMessage`. -/
structure OffStartResp where
  ok : Bool
  resumed : Bool
  error : Option OffStartErr
deriving DecidableEq, Repr

/-- The `handleStartMessage` operation of the offscreen delegate: reject when job info is
missing; when a job is already tracked, answer ok (resumed) for the same
id with the resume flag, reject the same id without it, and reject any
other id as busy; otherwise install the new job, reset the cancel flag
and launch the pipeline.  Returns the response, the new current job, the
new `cancelRequested` flag, and whether `runSummaryJob` was launched. -/
def handleStartMessage (current : Option OffJob) (cancelRequested : Bool)
    (m : OffStartMsg) : OffStartResp × Option OffJob × Bool × Bool :=
  match m.context, m.jobId.isEmpty with
  | some ctx, false =>
    (match current with
     | some j =>
       if j.id = m.jobId then
         if m.resume then
           ({ ok := true, resumed := true, error := none },
             current, cancelRequested, false)
         else
           ({ ok := false, resumed := false,
              error := some OffStartErr.sameJobRunning },
             current, cancelRequested, false)
       else
         ({ ok := false, resumed := false, error := some OffStartErr.busy },
           current, cancelRequested, false)
     | none =>
       ({ ok := true, resumed := false, error := none },
         some { id := m.jobId, context := ctx }, false, true))
  | _, _ =>
    ({ ok := false, resumed := false, error := some OffStartErr.missingJobInfo },
      current, cancelRequested, false)

/-- The job record of the offscreen-delegating background worker (the
second document embedded in the README source file): the same fields as
the `part_001` record plus the cancellation flags `cancelRequested` and
`cancelReason`. -/
structure BgJob where
  id : Str
  status : Status
  logs : List LogEntry
  startedAt : Nat
  updatedAt : Nat
  finishedAt : Option Nat
  error : Option Str
  result : Option JobResult
  cancelRequested : Bool
  cancelReason : Option Str
  context : Option JobContext
deriving DecidableEq, Repr

/-- The two rejection messages of `handleCancelMessage`:
`noActiveJob` stands for the no-running-job message and
`alreadyRequested` for the already-requested message. -/
inductive CancelErr
  | noActiveJob
  | alreadyRequested
deriving DecidableEq, Repr

/-- A `sendResponse` value of the cancel-summary handler. -/
structure CancelResp where
  ok : Bool
  error : Option CancelErr
deriving DecidableEq, Repr

/-- The `DEFAULT_CANCEL_MESSAGE` constant of the background worker. -/
def DEFAULT_CANCEL_MESSAGE : Str := str "ユーザーが処理を中断しました"

/-- The log line pushed by `handleCancelMessage` after the flag is set. -/
def cancelRequestLogMessage : Str := str "ユーザーが処理の中断を要求しました"

/-- `handleCancelMessage()` of the background worker: reject when no job
is running or the current job is not `running`; reject when cancellation
was already requested; otherwise set the cancellation flag and the
default reason, commit, push the cancel-request log line (through the
same append-with-eviction as `pushLog`, for the matching id), notify
the offscreen delegate best-effort, and accept.  `now` stands for the
`Date.now()` reads of `commitJob`, `nowIso` for the log timestamp.  The
returned flag records whether the offscreen delegate was notified. -/
def handleCancelMessage (st : Option BgJob) (nowIso : Str) (now : Nat) :
    CancelResp × Option BgJob × Bool :=
  match st with
  | none => ({ ok := false, error := some CancelErr.noActiveJob }, none, false)
  | some job =>
    if job.status ≠ Status.running then
      ({ ok := false, error := some CancelErr.noActiveJob }, some job, false)
    else if job.cancelRequested then
      ({ ok := false, error := some CancelErr.alreadyRequested }, some job, false)
    else
      let j1 : BgJob := { job with
        cancelRequested := true
        cancelReason := some DEFAULT_CANCEL_MESSAGE
        updatedAt := now }
      let j2 : BgJob := { j1 with
        logs := pushLogEntry j1.logs (LogEntry.mk nowIso cancelRequestLogMessage)
        updatedAt := now }
      ({ ok := true, error := none }, some j2, true)

/-- Uppercase hexadecimal digit of a value below 16. -/
def hexDigit (n : Nat) : Char :=
  if n < 10 then Char.ofNat (48 + n) else Char.ofNat (55 + n)

/-- The UTF-8 byte sequence of a character. -/
def utf8Bytes (c : Char) : List Nat :=
  let n := c.toNat
  if n < 128 then [n]
  else if n < 2048 then [192 + n / 64, 128 + n % 64]
  else if n < 65536 then [224 + n / 4096, 128 + n / 64 % 64, 128 + n % 64]
  else [240 + n / 262144, 128 + n / 4096 % 64, 128 + n / 64 % 64, 128 + n % 64]

/-- The characters `encodeURIComponent` leaves unescaped: ASCII
alphanumerics and `- _ . ! ~ * ( )` together with the apostrophe
(code 39). -/
def isUriUnreserved (c : Char) : Bool :=
  c.isAlphanum || c = Char.ofNat 45 || c = Char.ofNat 95 || c = Char.ofNat 46 ||
  c = Char.ofNat 33 || c = Char.ofNat 126 || c = Char.ofNat 42 ||
  c = Char.ofNat 39 || c = Char.ofNat 40 || c = Char.ofNat 41

/-- Percent-encoding of a single character as its UTF-8 bytes. -/
def percentEncodeChar (c : Char) : Str :=
  (utf8Bytes c).flatMap
    (fun b => [Char.ofNat 37, hexDigit (b / 16), hexDigit (b % 16)])

/-- Model of the JavaScript builtin `encodeURIComponent`. -/
def encodeURIComponent (s : Str) : Str :=
  s.flatMap (fun c => if isUriUnreserved c then [c] else percentEncodeChar c)

/-- The whitespace characters stripped by `String.prototype.trim`. -/
def isJsWhitespace (c : Char) : Bool :=
  c.toNat = 32 || c.toNat = 9 || c.toNat = 10 || c.toNat = 11 ||
  c.toNat = 12 || c.toNat = 13 || c.toNat = 160 || c.toNat = 65279

/-- Model of `String.prototype.trim`: strip leading and trailing
whitespace. -/
def jsTrim (s : Str) : Str :=
  ((s.dropWhile isJsWhitespace).reverse.dropWhile isJsWhitespace).reverse

/-- `sanitizeBaseUrl(value)`: `value.replace` of the `\/$` pattern, i.e.
drop one trailing slash when present. -/
def sanitizeBaseUrl (v : Str) : Str :=
  if v.getLast? = some (Char.ofNat 47) then v.dropLast else v

/-- `buildScrapboxUrl(baseUrl, project, title, summary)` from the source:
strip one trailing slash from the base, URL-encode project and title,
trim the summary (a null summary is modelled by the empty string, as
`summary || ""` collapses both) and URL-encode it, then interpolate. -/
def buildScrapboxUrl (baseUrl project title summary : Str) : Str :=
  let trimmedBase := sanitizeBaseUrl baseUrl
  let encodedProject := encodeURIComponent project
  let encodedTitle := encodeURIComponent title
  let bodyText := jsTrim summary
  let encodedBody := encodeURIComponent bodyText
  trimmedBase ++ str "/" ++ encodedProject ++ str "/" ++ encodedTitle ++
    str "?body=" ++ encodedBody

/-- The destination URL format as the claim states it: base with its
trailing slash stripped, slash, encoded project, slash, encoded title,
`?body=`, and the URL-encoded summary — with no trimming of the
summary. -/
def buildScrapboxUrlClaim (baseUrl project title summary : Str) : Str :=
  sanitizeBaseUrl baseUrl ++ str "/" ++ encodeURIComponent project ++
    str "/" ++ encodeURIComponent title ++ str "?body=" ++
    encodeURIComponent summary

/-- An anchor element as extracted by the anchor regex of `findPdfUrl`:
the href attribute, the tag-stripped link text, and the declared type
attribute.  The empty href models a missing/falsy attribute. -/
structure Anchor where
  href : Str
  text : Str
  typeAttr : Str
deriving DecidableEq, Repr

/-- A link element as extracted by the link regex of `findPdfUrl`. -/
structure LinkTag where
  typeAttr : Str
  href : Str
deriving DecidableEq, Repr

/-- The exact-match test `resolved.toLowerCase().endsWith(".pdf")`. -/
def exactPdf (r : Str) : Bool := strEndsWith (toLowerStr r) (str ".pdf")

/-- `uniquePush(list, value)` from the source: append unless present. -/
def uniquePush (list : List Str) (value : Str) : List Str :=
  if list.contains value then list else list ++ [value]

/-- The anchor pass of `findPdfUrl`: skip falsy or unresolvable hrefs;
for a resolved URL that looks like a PDF, return it at once when it ends
in `.pdf` (case-insensitively), else accumulate it deduplicated.
`resolve` abstracts `new URL(href, pageUrl).toString()` (`none` models a
parse failure).  `Sum.inl` is the early return, `Sum.inr` the candidate
accumulator. -/
def anchorLoop (resolve : Str → Option Str) :
    List Anchor → List Str → Sum Str (List Str)
  | [], acc => Sum.inr acc
  | a :: rest, acc =>
    if a.href.isEmpty then anchorLoop resolve rest acc
    else
      match resolve a.href with
      | none => anchorLoop resolve rest acc
      | some r =>
        if looksLikePdf r a.text (toLowerStr a.typeAttr) then
          if exactPdf r then Sum.inl r
          else anchorLoop resolve rest (uniquePush acc r)
        else anchorLoop resolve rest acc

/-- The `citation_pdf_url` meta pass of `findPdfUrl`: skip falsy or
unresolvable contents; return an exact `.pdf` match at once, else
accumulate the resolved URL (with no looks-like-a-PDF test). -/
def metaLoop (resolve : Str → Option Str) :
    List Str → List Str → Sum Str (List Str)
  | [], acc => Sum.inr acc
  | c :: rest, acc =>
    if c.isEmpty then metaLoop resolve rest acc
    else
      match resolve c with
      | none => metaLoop resolve rest acc
      | some r =>
        if exactPdf r then Sum.inl r
        else metaLoop resolve rest (uniquePush acc r)

/-- The link pass of `findPdfUrl`: only tags whose lowercased type is
`application/pdf` are considered; return an exact `.pdf` match at once,
else accumulate the resolved URL. -/
def linkLoop (resolve : Str → Option Str) :
    List LinkTag → List Str → Sum Str (List Str)
  | [], acc => Sum.inr acc
  | t :: rest, acc =>
    if toLowerStr t.typeAttr ≠ str "application/pdf" then
      linkLoop resolve rest acc
    else if t.href.isEmpty then linkLoop resolve rest acc
    else
      match resolve t.href with
      | none => linkLoop resolve rest acc
      | some r =>
        if exactPdf r then Sum.inl r
        else linkLoop resolve rest (uniquePush acc r)

/-- The HTML-discovery part of `findPdfUrl`, entered after the known-site
rules returned null and the page HTML was fetched: scan anchors, then
`citation_pdf_url` metas, then `application/pdf` link tags; an exact
`.pdf` match returns immediately; otherwise the first accumulated
candidate is returned; with no candidate at all the function fails (the
thrown not-found error).  The regex extraction of the three element lists
and URL resolution against the page URL are abstracted as inputs. -/
def findPdfUrlScan (resolve : Str → Option Str) (anchors : List Anchor)
    (metas : List Str) (links : List LinkTag) : Except Unit Str :=
  match anchorLoop resolve anchors [] with
  | Sum.inl r => Except.ok r
  | Sum.inr acc1 =>
    match metaLoop resolve metas acc1 with
    | Sum.inl r => Except.ok r
    | Sum.inr acc2 =>
      match linkLoop resolve links acc2 with
      | Sum.inl r => Except.ok r
      | Sum.inr acc3 =>
        match acc3 with
        | c :: _ => Except.ok c
        | [] => Except.error ()

/-- The resolved candidates contributed by the anchor pass, in scan
order, each paired with whether it is accumulated as a fallback
candidate (it looks like a PDF, given its link text and type attribute). -/
def anchorItems (resolve : Str → Option Str) (anchors : List Anchor) :
    List (Str × Bool) :=
  anchors.filterMap (fun a =>
    if a.href.isEmpty then none
    else (resolve a.href).map
      (fun r => (r, looksLikePdf r a.text (toLowerStr a.typeAttr))))

/-- The meta candidates as the claim reads them: accumulated only when
they look like a PDF (with no anchor text and no declared MIME type). -/
def metaItemsClaim (resolve : Str → Option Str) (metas : List Str) :
    List (Str × Bool) :=
  metas.filterMap (fun c =>
    if c.isEmpty then none
    else (resolve c).map (fun r => (r, looksLikePdf r [] [])))

/-- The meta candidates as the code accumulates them: unconditionally. -/
def metaItemsAll (resolve : Str → Option Str) (metas : List Str) :
    List (Str × Bool) :=
  metas.filterMap (fun c =>
    if c.isEmpty then none
    else (resolve c).map (fun r => (r, true)))

/-- The candidates contributed by `application/pdf` link tags; such a
candidate always looks like a PDF thanks to its declared MIME type. -/
def linkItems (resolve : Str → Option Str) (links : List LinkTag) :
    List (Str × Bool) :=
  links.filterMap (fun t =>
    if toLowerStr t.typeAttr ≠ str "application/pdf" then none
    else if t.href.isEmpty then none
    else (resolve t.href).map
      (fun r => (r, looksLikePdf r [] (str "application/pdf"))))

/-- Deduplication keeping the first occurrence of each candidate. -/
def dedupAux (seen : List Str) : List Str → List Str
  | [] => []
  | x :: xs =>
    if seen.contains x then dedupAux seen xs
    else x :: dedupAux (x :: seen) xs

/-- Deduplicated candidate list, first occurrences kept in order. -/
def dedupKeepFirst (l : List Str) : List Str := dedupAux [] l

/-- The declarative scan the claim describes, over an ordered candidate
stream: the first exact `.pdf` candidate wins outright, even when
fallback candidates were accumulated earlier; otherwise the accumulated
candidates are deduplicated and the first is returned; and with no
candidate the scan fails. -/
def pdfScanSpec (items : List (Str × Bool)) : Except Unit Str :=
  match items.find? (fun i => exactPdf i.1) with
  | some i => Except.ok i.1
  | none =>
    match dedupKeepFirst (items.filterMap
        (fun i => if i.2 then some i.1 else none)) with
    | c :: _ => Except.ok c
    | [] => Except.error ()

/-- The discovery claim exactly as stated: anchors, then metas, then
links, with the candidates of every source subject to the looks-like-a-PDF
accumulation filter. -/
def findPdfUrlScanClaim (resolve : Str → Option Str) (anchors : List Anchor)
    (metas : List Str) (links : List LinkTag) : Except Unit Str :=
  pdfScanSpec (anchorItems resolve anchors ++ metaItemsClaim resolve metas ++
    linkItems resolve links)

/-- The discovery claim as amended: identical except that the resolved
`citation_pdf_url` meta candidates are accumulated unconditionally. -/
def findPdfUrlScanAmended (resolve : Str → Option Str)
    (anchors : List Anchor) (metas : List Str) (links : List LinkTag) :
    Except Unit Str :=
  pdfScanSpec (anchorItems resolve anchors ++ metaItemsAll resolve metas ++
    linkItems resolve links)

/-- Proof device: a uniform scan over a candidate stream, of which the
three passes of `findPdfUrlScan` are instances. -/
def scanLoop : List (Str × Bool) → List Str → Sum Str (List Str)
  | [], acc => Sum.inr acc
  | (r, keep) :: rest, acc =>
    if exactPdf r then Sum.inl r
    else scanLoop rest (if keep then uniquePush acc r else acc)

/-- Proof device: turn a pass result into the final answer of the scan. -/
def finishAcc : List Str → Except Unit Str
  | [] => Except.error ()
  | c :: _ => Except.ok c

/-- Proof device: finish an early return or fall back to the accumulator. -/
def finishScan : Sum Str (List Str) → Except Unit Str
  | Sum.inl r => Except.ok r
  | Sum.inr acc => finishAcc acc

/-- Proof device: the accumulation step of `scanLoop`. -/
def accStep (acc : List Str) (i : Str × Bool) : List Str :=
  if i.2 then uniquePush acc i.1 else acc

/-- A concrete running background-worker job with no cancellation
requested. -/
def sampleBgJob : BgJob :=
  { id := str "job-1"
    status := Status.running
    logs := [sampleEntry]
    startedAt := 1
    updatedAt := 1
    finishedAt := none
    error := none
    result := none
    cancelRequested := false
    cancelReason := none
    context := some sampleContext }

theorem strStartsWith_iff (l p : Str) :
    strStartsWith l p = true ↔ StartsWithSpec l p := by
  induction p generalizing l with
  | nil =>
    simp [strStartsWith, StartsWithSpec]
  | cons q qs ih =>
    cases l with
    | nil =>
      simp [strStartsWith, StartsWithSpec]
    | cons c cs =>
      constructor
      · intro h
        simp only [strStartsWith] at h
        split at h
        · next hcq =>
          obtain ⟨b, hb⟩ := (ih cs).mp h
          exact ⟨b, by simp [hcq, hb]⟩
        · exact absurd h (by simp)
      · rintro ⟨b, hb⟩
        simp only [List.cons_append, List.cons.injEq] at hb
        obtain ⟨hc, hcs⟩ := hb
        simp only [strStartsWith, hc, if_pos]
        exact (ih cs).mpr ⟨b, hcs⟩

theorem strEndsWith_iff (l p : Str) :
    strEndsWith l p = true ↔ EndsWithSpec l p := by
  unfold strEndsWith
  rw [strStartsWith_iff]
  constructor
  · rintro ⟨b, hb⟩
    refine ⟨b.reverse, ?_⟩
    have := congrArg List.reverse hb
    simpa using this
  · rintro ⟨a, ha⟩
    exact ⟨a.reverse, by simp [ha]⟩

theorem strHasSub_iff (l p : Str) :
    strHasSub l p = true ↔ HasSubSpec l p := by
  induction l with
  | nil =>
    constructor
    · intro h
      simp only [strHasSub, List.isEmpty_iff] at h
      exact ⟨[], [], by simp [h]⟩
    · rintro ⟨a, b, hab⟩
      have : a = [] ∧ p = [] ∧ b = [] := by
        have h0 := congrArg List.length hab
        simp at h0
        refine ⟨?_, ?_, ?_⟩ <;> [skip; skip; skip] <;>
          exact List.eq_nil_of_length_eq_zero (by omega)
      simp [strHasSub, this.2.1]
  | cons c cs ih =>
    constructor
    · intro h
      simp only [strHasSub, Bool.or_eq_true] at h
      rcases h with h | h
      · obtain ⟨b, hb⟩ := (strStartsWith_iff _ _).mp h
        exact ⟨[], b, by simp [hb]⟩
      · obtain ⟨a, b, hab⟩ := ih.mp h
        exact ⟨c :: a, b, by simp [hab]⟩
    · rintro ⟨a, b, hab⟩
      simp only [strHasSub, Bool.or_eq_true]
      cases a with
      | nil =>
        left
        exact (strStartsWith_iff _ _).mpr ⟨b, by simpa using hab⟩
      | cons x xs =>
        right
        simp only [List.cons_append, List.cons.injEq] at hab
        exact ih.mpr ⟨xs, b, hab.2⟩

/-- C7: `looksLikePdf(url, anchorText, mimeType)` returns true exactly when
one of the specified signals holds: the (lowercased) URL ends in `.pdf`,
the declared MIME type is `application/pdf`, the URL contains `.pdf`
anywhere, the URL contains a `/pdf/` segment, the URL indicates a PDF
format or forced download, or the anchor text contains "pdf" — all
case-insensitively.  In particular every URL ending in `.pdf` in any case
satisfies the first disjunct, so `looksLikePdf` returns true on it. -/
theorem looksLikePdf_iff_claim (url anchorText mimeType : Str) :
    looksLikePdf url anchorText mimeType = true ↔
      LooksLikePdfClaim url anchorText mimeType := by
  simp only [looksLikePdf, LooksLikePdfClaim, Bool.or_eq_true,
    decide_eq_true_eq, strEndsWith_iff, strHasSub_iff]
  tauto

theorem loadPersistedJob_resume_eq (job : Job) (nowIso : Str) (now : Nat)
    (h : job.status = Status.running) (hc : hasUsableCredential job = true) :
    loadPersistedJob (some job) nowIso now =
      (some { job with
          logs := job.logs ++ [⟨nowIso, resumeLogMessage⟩]
          updatedAt := now },
        LoadOutcome.resumed job.id) := by
  simp [loadPersistedJob, h, hc]

/-- C1: while the current job record has status `running`, any further
start-summary request is rejected (`ok = false`) and the current job is
left completely unchanged (no field mutated, no new job installed); when
the request carries all required fields, the rejection is the
AlreadyRunning error.  The state is a single `Option Job`, so at most one
job is running at any time. -/
theorem startSummary_rejected_while_running (job : Job) (p : StartPayload)
    (newId : Str) (now : Nat) (h : job.status = Status.running) :
    (handleStartSummary (some job) p newId now).2 = some job ∧
    (handleStartSummary (some job) p newId now).1.ok = false ∧
    (requiredPresent p = true →
      (handleStartSummary (some job) p newId now).1.error =
        some StartErr.alreadyRunning) := by
  by_cases hr : requiredPresent p = true <;>
    simp [handleStartSummary, currentRunning, h, hr]

theorem startSummary_rejected_witness :
    sampleRunningJob.status = Status.running ∧
    (handleStartSummary (some sampleRunningJob) samplePayload (str "job-2") 9).2 =
      some sampleRunningJob ∧
    (handleStartSummary (some sampleRunningJob) samplePayload (str "job-2") 9).1.error =
      some StartErr.alreadyRunning :=
  ⟨rfl,
    (startSummary_rejected_while_running sampleRunningJob samplePayload
      (str "job-2") 9 rfl).1,
    (startSummary_rejected_while_running sampleRunningJob samplePayload
      (str "job-2") 9 rfl).2.2 (by decide)⟩

/-- C2: every `markJobStatus` call that moves the current job to a
non-`running` status (success, error or aborted alike) leaves a record
whose context holds no credential: `apiKey` is set to null in the same
transition. -/
theorem markJobStatus_clears_credential (job : Job) (status : Status)
    (extra : MarkExtra) (now : Nat) (h : status ≠ Status.running) :
    credentialOf (markJobStatus (some job) job.id status extra now).1 = none := by
  simp only [markJobStatus, if_pos rfl]
  cases hres : extra.result <;> cases hctx : job.context <;>
    by_cases hs : status = Status.success <;>
      simp [credentialOf, h, hs, hctx, hres]

theorem markJobStatus_clears_witness :
    Status.error ≠ Status.running ∧
    credentialOf
      (markJobStatus (some sampleRunningJob) sampleRunningJob.id Status.error
        sampleExtra 7).1 = none :=
  ⟨by decide,
    markJobStatus_clears_credential sampleRunningJob Status.error sampleExtra 7
      (by decide)⟩

/-- C10: a `markJobStatus` call whose job id does not match the current
job (including when no current job exists) is a complete no-op: the
current job record is returned unchanged and `commitJob` never runs, so
nothing is persisted or broadcast. -/
theorem markJobStatus_stale_id_noop (st : Option Job) (jobId : Str)
    (status : Status) (extra : MarkExtra) (now : Nat)
    (h : ∀ job, st = some job → job.id ≠ jobId) :
    markJobStatus st jobId status extra now = (st, false) := by
  cases st with
  | none => rfl
  | some job => simp [markJobStatus, h job rfl]

theorem markJobStatus_stale_id_witness :
    markJobStatus (some sampleRunningJob) (str "other") Status.success
      sampleExtra 3 = (some sampleRunningJob, false) :=
  markJobStatus_stale_id_noop _ _ _ _ _
    (by intro job hj; injection hj with hj; subst hj; decide)

/-- C4: on load of a persisted `running` job, exactly two outcomes are
possible.  If the stored context still holds its credential, the resume
log line is appended, the job stays `running`, and the pipeline is re-run
for the same job id.  Otherwise the job is marked `aborted` with the
explicit retry message, which is also appended to the logs. -/
theorem loadPersistedJob_running_two_outcomes (job : Job) (nowIso : Str)
    (now : Nat) (h : job.status = Status.running) :
    (hasUsableCredential job = true →
      loadPersistedJob (some job) nowIso now =
        (some { job with
            logs := job.logs ++ [⟨nowIso, resumeLogMessage⟩]
            updatedAt := now },
          LoadOutcome.resumed job.id)) ∧
    (hasUsableCredential job = false →
      loadPersistedJob (some job) nowIso now =
        (some { job with
            status := Status.aborted
            error := some abortMessage
            logs := job.logs ++ [⟨nowIso, abortMessage⟩]
            updatedAt := now },
          LoadOutcome.abortedInconsistent)) := by
  constructor <;> intro hc <;> simp [loadPersistedJob, abortOnLoad, h, hc]

theorem loadPersistedJob_resume_witness :
    sampleRunningJob.status = Status.running ∧
    hasUsableCredential sampleRunningJob = true ∧
    (loadPersistedJob (some sampleRunningJob) (str "t") 5).2 =
      LoadOutcome.resumed sampleRunningJob.id := by
  refine ⟨rfl, by decide, ?_⟩
  rw [(loadPersistedJob_running_two_outcomes sampleRunningJob (str "t") 5
    rfl).1 (by decide)]

/-- C8 (amended): `pushLog` preserves the log bound: whenever the current
log list of the current job holds at most `LOG_LIMIT` entries, after the append (with
one oldest entry evicted when the limit would be exceeded) it still holds
at most `LOG_LIMIT` entries, and the retained entries are a suffix of the
append history, i.e. the most recently appended entries in append order.
The restart-time appends of `loadPersistedJob` bypass this eviction (see
the counterexample theorem). -/
theorem pushLog_preserves_bound (job : Job) (e : LogEntry) (now : Nat)
    (h : job.logs.length ≤ LOG_LIMIT) :
    (logsOf (pushLog (some job) job.id e now).1).length ≤ LOG_LIMIT ∧
    List.IsSuffix (logsOf (pushLog (some job) job.id e now).1)
      (job.logs ++ [e]) := by
  simp only [pushLog, if_pos rfl, logsOf, pushLogEntry]
  by_cases hl : LOG_LIMIT < (job.logs ++ [e]).length
  · rw [if_pos hl]
    refine ⟨?_, List.tail_suffix _⟩
    have hlen : (job.logs ++ [e]).length = job.logs.length + 1 := by simp
    simp [List.length_tail, hlen]
    omega
  · rw [if_neg hl]
    exact ⟨Nat.le_of_not_lt hl, List.suffix_refl _⟩

theorem pushLog_bound_witness :
    sampleRunningJob.logs.length ≤ LOG_LIMIT ∧
    (logsOf (pushLog (some sampleRunningJob) sampleRunningJob.id sampleEntry
      4).1).length ≤ LOG_LIMIT ∧
    List.IsSuffix
      (logsOf (pushLog (some sampleRunningJob) sampleRunningJob.id sampleEntry
        4).1)
      (sampleRunningJob.logs ++ [sampleEntry]) :=
  ⟨by decide,
    (pushLog_preserves_bound sampleRunningJob sampleEntry 4 (by decide)).1,
    (pushLog_preserves_bound sampleRunningJob sampleEntry 4 (by decide)).2⟩

/-- C8 counterexample: the resume branch of `loadPersistedJob` appends its
log line without evicting, so a reloaded running job whose log list
already holds `LOG_LIMIT` (= 200) entries ends up with 201 — the claimed
bound does not hold after every log-append operation. -/
theorem loadPersistedJob_breaks_log_bound :
    (logsOf (loadPersistedJob (some fullLogJob) (str "t") 5).1).length =
      LOG_LIMIT + 1 ∧
    ¬ (logsOf (loadPersistedJob (some fullLogJob) (str "t") 5).1).length ≤
      LOG_LIMIT := by
  have hlogs : fullLogJob.logs = List.replicate LOG_LIMIT sampleEntry := rfl
  have hred : (loadPersistedJob (some fullLogJob) (str "t") 5).1 =
      some { fullLogJob with
        logs := fullLogJob.logs ++ [LogEntry.mk (str "t") resumeLogMessage]
        updatedAt := 5 } := by
    rw [loadPersistedJob_resume_eq fullLogJob (str "t") 5 rfl (by decide)]
  rw [hred]
  show (fullLogJob.logs ++ [LogEntry.mk (str "t") resumeLogMessage]).length = LOG_LIMIT + 1 ∧
    ¬ (fullLogJob.logs ++ [LogEntry.mk (str "t") resumeLogMessage]).length ≤ LOG_LIMIT
  rw [hlogs, List.length_append, List.length_replicate]
  exact ⟨rfl, by decide⟩

/-- C5: the offscreen delegate runs one job at a time.  For a well-formed
start message while a job is tracked: a different job id is rejected with
the Busy error and nothing changes (no job installed, no pipeline
launched); the same job id presented with the resume flag succeeds as a
pure no-op (ok response, state untouched, no second pipeline launched). -/
theorem offscreen_single_job (j : OffJob) (cr : Bool) (m : OffStartMsg)
    (hid : m.jobId.isEmpty = false) (hctx : m.context.isSome = true) :
    (j.id ≠ m.jobId →
      handleStartMessage (some j) cr m =
        ({ ok := false, resumed := false, error := some OffStartErr.busy },
          some j, cr, false)) ∧
    (j.id = m.jobId → m.resume = true →
      handleStartMessage (some j) cr m =
        ({ ok := true, resumed := true, error := none }, some j, cr, false)) := by
  obtain ⟨ctx, hc⟩ := Option.isSome_iff_exists.mp hctx
  constructor
  · intro hne
    simp [handleStartMessage, hc, hid, hne]
  · intro heq hres
    simp [handleStartMessage, hc, hid, heq, hres]

theorem offscreen_single_job_witness :
    handleStartMessage (some { id := str "a", context := sampleContext }) false
      { jobId := str "b", context := some sampleContext, resume := false } =
      ({ ok := false, resumed := false, error := some OffStartErr.busy },
        some { id := str "a", context := sampleContext }, false, false) ∧
    handleStartMessage (some { id := str "a", context := sampleContext }) false
      { jobId := str "a", context := some sampleContext, resume := true } =
      ({ ok := true, resumed := true, error := none },
        some { id := str "a", context := sampleContext }, false, false) :=
  ⟨(offscreen_single_job { id := str "a", context := sampleContext } false
      { jobId := str "b", context := some sampleContext, resume := false }
      (by decide) (by decide)).1 (by decide),
    (offscreen_single_job { id := str "a", context := sampleContext } false
      { jobId := str "a", context := some sampleContext, resume := true }
      (by decide) (by decide)).2 rfl rfl⟩

/-- C3: every cancel request fails with the NoActiveJob rejection when no
job is running (no current job, or a non-running one), fails with the
AlreadyRequested rejection when cancellation has already been requested
for the running job — in both cases leaving the record unchanged and the
delegate unnotified — and otherwise sets the cancellation flag (with the
default reason), logs the request, notifies the delegate and reports
acceptance. -/
theorem cancel_three_outcomes (st : Option BgJob) (nowIso : Str) (now : Nat) :
    ((∀ j, st = some j → j.status ≠ Status.running) →
      handleCancelMessage st nowIso now =
        ({ ok := false, error := some CancelErr.noActiveJob }, st, false)) ∧
    (∀ j, st = some j → j.status = Status.running → j.cancelRequested = true →
      handleCancelMessage st nowIso now =
        ({ ok := false, error := some CancelErr.alreadyRequested }, st, false)) ∧
    (∀ j, st = some j → j.status = Status.running → j.cancelRequested = false →
      handleCancelMessage st nowIso now =
        ({ ok := true, error := none },
          some { j with
            cancelRequested := true
            cancelReason := some DEFAULT_CANCEL_MESSAGE
            logs := pushLogEntry j.logs
              (LogEntry.mk nowIso cancelRequestLogMessage)
            updatedAt := now },
          true)) := by
  refine ⟨?_, ?_, ?_⟩
  · intro h
    cases st with
    | none => rfl
    | some j => simp [handleCancelMessage, h j rfl]
  · intro j hj hrun hreq
    subst hj
    simp [handleCancelMessage, hrun, hreq]
  · intro j hj hrun hreq
    subst hj
    simp [handleCancelMessage, hrun, hreq]

theorem cancel_accepts_witness :
    handleCancelMessage (some sampleBgJob) (str "t") 5 =
      ({ ok := true, error := none },
        some { sampleBgJob with
          cancelRequested := true
          cancelReason := some DEFAULT_CANCEL_MESSAGE
          logs := pushLogEntry sampleBgJob.logs
            (LogEntry.mk (str "t") cancelRequestLogMessage)
          updatedAt := 5 },
        true) :=
  (cancel_three_outcomes (some sampleBgJob) (str "t") 5).2.2 _ rfl rfl rfl

/-- C9 counterexample: `buildScrapboxUrl` trims the summary before
encoding it, so on a summary with surrounding whitespace it differs from
the claimed format, which encodes the summary as given. -/
theorem buildScrapboxUrl_trim_counterexample :
    buildScrapboxUrl (str "https://scrapbox.io") (str "p") (str "t")
        (str " hi ") = str "https://scrapbox.io/p/t?body=hi" ∧
    buildScrapboxUrlClaim (str "https://scrapbox.io") (str "p") (str "t")
        (str " hi ") = str "https://scrapbox.io/p/t?body=%20hi%20" ∧
    buildScrapboxUrl (str "https://scrapbox.io") (str "p") (str "t")
        (str " hi ") ≠
      buildScrapboxUrlClaim (str "https://scrapbox.io") (str "p") (str "t")
        (str " hi ") := by
  refine ⟨by decide, by decide, by decide⟩

/-- C9 (amended): `buildScrapboxUrl` returns
`<base-with-one-trailing-slash-stripped>/<encoded project>/<encoded
title>?body=<encoded summary>` where the summary is first trimmed of
leading and trailing whitespace. -/
theorem buildScrapboxUrl_format (baseUrl project title summary : Str) :
    buildScrapboxUrl baseUrl project title summary =
      buildScrapboxUrlClaim baseUrl project title (jsTrim summary) := rfl

theorem exactPdf_looksLikePdf (r t m : Str) (h : exactPdf r = true) :
    looksLikePdf r t m = true := by
  unfold exactPdf at h
  simp [looksLikePdf, h]

theorem looksLikePdf_mime (r t : Str) :
    looksLikePdf r t (str "application/pdf") = true := by
  have hm : decide (toLowerStr (str "application/pdf") =
      str "application/pdf") = true := by decide
  simp [looksLikePdf, hm]

theorem anchorLoop_eq_scanLoop (resolve : Str → Option Str)
    (anchors : List Anchor) :
    ∀ acc : List Str,
      anchorLoop resolve anchors acc =
        scanLoop (anchorItems resolve anchors) acc := by
  induction anchors with
  | nil => intro acc; rfl
  | cons a rest ih =>
    intro acc
    by_cases hh : a.href = []
    · simp [anchorLoop, anchorItems, List.isEmpty_iff, hh,
        List.filterMap_cons, ih]
    · cases hr : resolve a.href with
      | none =>
        simp [anchorLoop, anchorItems, List.isEmpty_iff, hh, hr,
          List.filterMap_cons, ih]
      | some r =>
        by_cases hl : looksLikePdf r a.text (toLowerStr a.typeAttr) = true
        · by_cases he : exactPdf r = true
          · simp [anchorLoop, anchorItems, List.isEmpty_iff, hh, hr, hl, he,
              List.filterMap_cons, scanLoop]
          · simp only [Bool.not_eq_true] at he
            simp [anchorLoop, anchorItems, List.isEmpty_iff, hh, hr, hl, he,
              List.filterMap_cons, scanLoop, ih]
        · have he : exactPdf r = false := by
            cases hcase : exactPdf r with
            | false => rfl
            | true =>
              exact absurd (exactPdf_looksLikePdf r a.text
                (toLowerStr a.typeAttr) hcase) hl
          simp only [Bool.not_eq_true] at hl
          simp [anchorLoop, anchorItems, List.isEmpty_iff, hh, hr, hl, he,
            List.filterMap_cons, scanLoop, ih]

theorem metaLoop_eq_scanLoop (resolve : Str → Option Str)
    (metas : List Str) :
    ∀ acc : List Str,
      metaLoop resolve metas acc =
        scanLoop (metaItemsAll resolve metas) acc := by
  induction metas with
  | nil => intro acc; rfl
  | cons c rest ih =>
    intro acc
    by_cases hh : c = []
    · simp [metaLoop, metaItemsAll, List.isEmpty_iff, hh,
        List.filterMap_cons, ih]
    · cases hr : resolve c with
      | none =>
        simp [metaLoop, metaItemsAll, List.isEmpty_iff, hh, hr,
          List.filterMap_cons, ih]
      | some r =>
        by_cases he : exactPdf r = true
        · simp [metaLoop, metaItemsAll, List.isEmpty_iff, hh, hr, he,
            List.filterMap_cons, scanLoop]
        · simp only [Bool.not_eq_true] at he
          simp [metaLoop, metaItemsAll, List.isEmpty_iff, hh, hr, he,
            List.filterMap_cons, scanLoop, ih]

theorem linkLoop_eq_scanLoop (resolve : Str → Option Str)
    (links : List LinkTag) :
    ∀ acc : List Str,
      linkLoop resolve links acc =
        scanLoop (linkItems resolve links) acc := by
  induction links with
  | nil => intro acc; rfl
  | cons t rest ih =>
    intro acc
    by_cases ht : toLowerStr t.typeAttr = str "application/pdf"
    · by_cases hh : t.href = []
      · simp [linkLoop, linkItems, List.isEmpty_iff, ht, hh,
          List.filterMap_cons, ih]
      · cases hr : resolve t.href with
        | none =>
          simp [linkLoop, linkItems, List.isEmpty_iff, ht, hh, hr,
            List.filterMap_cons, ih]
        | some r =>
          by_cases he : exactPdf r = true
          · simp [linkLoop, linkItems, List.isEmpty_iff, ht, hh, hr, he,
              List.filterMap_cons, scanLoop]
          · simp only [Bool.not_eq_true] at he
            simp [linkLoop, linkItems, List.isEmpty_iff, ht, hh, hr, he,
              List.filterMap_cons, scanLoop, ih, looksLikePdf_mime]
    · simp [linkLoop, linkItems, ht, List.filterMap_cons, ih]

theorem scanLoop_append (l₁ l₂ : List (Str × Bool)) :
    ∀ acc : List Str,
      scanLoop (l₁ ++ l₂) acc =
        (match scanLoop l₁ acc with
         | Sum.inl r => Sum.inl r
         | Sum.inr a => scanLoop l₂ a) := by
  induction l₁ with
  | nil => intro acc; rfl
  | cons i rest ih =>
    intro acc
    obtain ⟨r, k⟩ := i
    by_cases he : exactPdf r = true
    · simp [scanLoop, he]
    · simp only [Bool.not_eq_true] at he
      simp [scanLoop, he, ih]

theorem finishScan_scanLoop_eq (l : List (Str × Bool)) :
    ∀ acc : List Str,
      finishScan (scanLoop l acc) =
        (match l.find? (fun i => exactPdf i.1) with
         | some i => Except.ok i.1
         | none => finishAcc (l.foldl accStep acc)) := by
  induction l with
  | nil => intro acc; rfl
  | cons i rest ih =>
    intro acc
    obtain ⟨r, k⟩ := i
    by_cases he : exactPdf r = true
    · simp [scanLoop, finishScan, List.find?_cons, he]
    · simp only [Bool.not_eq_true] at he
      simp [scanLoop, List.find?_cons, he, ih, accStep]

theorem foldl_accStep_eq (l : List (Str × Bool)) :
    ∀ acc : List Str,
      l.foldl accStep acc =
        (l.filterMap (fun i => if i.2 then some i.1 else none)).foldl
          uniquePush acc := by
  induction l with
  | nil => intro acc; rfl
  | cons i rest ih =>
    intro acc
    obtain ⟨r, k⟩ := i
    cases k <;> simp [accStep, List.filterMap_cons, ih]

theorem foldl_uniquePush_head (l : List Str) :
    ∀ acc : List Str, (l.foldl uniquePush acc).head? = (acc ++ l).head? := by
  induction l with
  | nil => intro acc; simp
  | cons x xs ih =>
    intro acc
    rw [List.foldl_cons, ih]
    cases acc with
    | nil => simp [uniquePush]
    | cons a as =>
      simp only [uniquePush]
      split <;> simp

theorem dedupKeepFirst_head (l : List Str) :
    (dedupKeepFirst l).head? = l.head? := by
  cases l with
  | nil => rfl
  | cons x xs => simp [dedupKeepFirst, dedupAux]

theorem finishAcc_eq_head (l : List Str) :
    finishAcc l =
      (match l.head? with
       | some c => Except.ok c
       | none => Except.error ()) := by
  cases l <;> rfl

theorem finishScan_scanLoop_spec (items : List (Str × Bool)) :
    finishScan (scanLoop items []) = pdfScanSpec items := by
  rw [finishScan_scanLoop_eq]
  unfold pdfScanSpec
  cases hf : items.find? (fun i => exactPdf i.1) with
  | some i => rfl
  | none =>
    rw [foldl_accStep_eq, finishAcc_eq_head, foldl_uniquePush_head,
      List.nil_append, ← dedupKeepFirst_head]
    cases dedupKeepFirst (items.filterMap
        (fun i => if i.2 then some i.1 else none)) <;> rfl

/-- C6 (amended): the HTML-discovery scan visits anchors, then the
`citation_pdf_url` metas, then `application/pdf` links; the first
resolved candidate ending in `.pdf` (case-insensitively) is returned
immediately even when fallback candidates were accumulated earlier;
anchor candidates are accumulated, deduplicated, only when they look
like a PDF, while resolved meta candidates are accumulated
unconditionally (link candidates always look like a PDF through their
declared MIME type); only after all three sources are exhausted with no
exact match is the first accumulated candidate returned, and with no
candidate at all the scan fails with the not-found error. -/
theorem findPdfUrlScan_eq_amended (resolve : Str → Option Str)
    (anchors : List Anchor) (metas : List Str) (links : List LinkTag) :
    findPdfUrlScan resolve anchors metas links =
      findPdfUrlScanAmended resolve anchors metas links := by
  have hchain : findPdfUrlScan resolve anchors metas links =
      finishScan (scanLoop (anchorItems resolve anchors ++
        (metaItemsAll resolve metas ++ linkItems resolve links)) []) := by
    rw [scanLoop_append, ← anchorLoop_eq_scanLoop]
    unfold findPdfUrlScan
    cases hA : anchorLoop resolve anchors [] with
    | inl r => rfl
    | inr acc1 =>
      simp only []
      rw [scanLoop_append, ← metaLoop_eq_scanLoop]
      cases hM : metaLoop resolve metas acc1 with
      | inl r => rfl
      | inr acc2 =>
        simp only []
        rw [← linkLoop_eq_scanLoop]
        cases hL : linkLoop resolve links acc2 with
        | inl r => rfl
        | inr acc3 => cases acc3 <;> rfl
  rw [hchain, finishScan_scanLoop_spec]
  unfold findPdfUrlScanAmended
  rw [List.append_assoc]

/-- C6 counterexample: a page whose only candidate is a `citation_pdf_url`
meta resolving to a URL that does not look like a PDF.  The code still
accumulates it and returns it, while the scan of the claim — which accumulates
only candidates that look like a PDF — would find no candidate and fail
with the not-found error. -/
theorem findPdfUrlScan_meta_counterexample :
    findPdfUrlScan Option.some [] [str "https://example.org/doc"] [] =
      Except.ok (str "https://example.org/doc") ∧
    findPdfUrlScanClaim Option.some [] [str "https://example.org/doc"] [] =
      Except.error () ∧
    looksLikePdf (str "https://example.org/doc") [] [] = false := by
  exact ⟨rfl, rfl, by decide⟩

end PaperToScrapbox
